import Mathlib

/-!
Verification of the mport package-manager front end (mport.c and
mport.list.c) against its natural-language specification.

The development shallowly embeds the three non-trivial algorithms of the
front end:

* the Update Diff Engine of mport.list.c (the `-u` branch of `main`,
  lines 128-158): per installed package / index entry pair, the outdated
  test of lines 143-144;
* the Install Resolver of mport.c (`install`, lines 584-644): verbatim
  lookup, the rightmost-hyphen fallback, the interactive disambiguation
  prompt, and the per-batch aggregation of `main` (lines 154-164, 369);
* the Dependency-Ordered Bulk Remover of mport.c (`deleteAll`,
  lines 746-794): the pass/fixpoint loop over the installed set.

External collaborators (libmport's store, index and version comparator)
are modelled as parameters: the comparator as a function over optional
strings (a C `char *` argument may be NULL), the index as a lookup
function from names to entry lists, the installed store as a list of
package names together with a dependency edge list, and the external
per-package delete command through the set of names on which it fails.
-/

namespace Mport

/-! ## Data model (spec section 3, mport.h as consumed by the two files) -/

/-- An installed package as consumed by mport.list.c: the fields read by
the update branch.  `version` and `os_release` are optional because the
corresponding C fields are `char *` and may be NULL (spec 4.1 edge
case). -/
structure InstalledPkg where
  name : String
  version : Option String
  os_release : Option String
  deriving Repr, DecidableEq

/-- An index entry as consumed by mport.c and mport.list.c.  `version`
is optional for the same reason as in `InstalledPkg`. -/
structure IdxEntry where
  pkgname : String
  version : Option String
  deriving Repr, DecidableEq

/-! ## Update Diff Engine (mport.list.c, lines 142-155)

The C condition deciding whether a report line is printed for the pair
(installed package, index entry) is

  ((*indexEntries)->version != NULL
       && mport_version_cmp((*packs)->version, (*indexEntries)->version) < 0)
  || ((*packs)->version != NULL
       && mport_version_cmp((*packs)->os_release, os_release) < 0)

with C short-circuit evaluation.  `outdatedEval` embeds this condition
and additionally records, in evaluation order, every argument pair the
comparator `cmp` is invoked with, so that claims about the comparator
being (or not being) called with missing data are statable.  The first
component of the result is the printed/not-printed decision. -/
def outdatedEval (cmp : Option String → Option String → Int) (sysOs : String)
    (p : InstalledPkg) (e : IdxEntry) : Bool × List (Option String × Option String) :=
  match e.version with
  | some _ =>
    -- first conjunct guard passed: cmp((*packs)->version, (*indexEntries)->version)
    if cmp p.version e.version < 0 then
      (true, [(p.version, e.version)])
    else
      -- first disjunct false; evaluate the second
      match p.version with
      | some _ =>
        -- second guard is on (*packs)->version, then cmp((*packs)->os_release, os_release)
        (decide (cmp p.os_release (some sysOs) < 0),
          [(p.version, e.version), (p.os_release, some sysOs)])
      | none => (false, [(p.version, e.version)])
  | none =>
    -- first conjunct short-circuits without calling cmp
    match p.version with
    | some _ =>
      (decide (cmp p.os_release (some sysOs) < 0), [(p.os_release, some sysOs)])
    | none => (false, [])

/-- The outdated decision alone: a report line is emitted for the pair
(p, e) exactly when this is `true` (mport.list.c lines 143-153). -/
def outdatedFlag (cmp : Option String → Option String → Int) (sysOs : String)
    (p : InstalledPkg) (e : IdxEntry) : Bool :=
  (outdatedEval cmp sysOs p e).1

/-- A concrete stand-in comparator used to evaluate the embedding at
specific inputs: compares the lengths of the strings, treating NULL as
the empty string. -/
def cmpByLength (a b : Option String) : Int :=
  ((a.getD "").length : Int) - ((b.getD "").length : Int)

/-! ## Install Resolver (mport.c, install, lines 584-644)

The resolver first looks the specifier up verbatim; on an empty result
it scans the specifier from the right for the last hyphen (lines
594-601), and when one is found at a position loc > 0 it truncates at
loc and re-queries with the prefix, comparing the embedded suffix
against the version of the FIRST entry of the re-query result (line
608) BEFORE the emptiness check of line 615 runs.  A C-level NULL
dereference (reading a field of the NULL entry terminator) is embedded
as the distinguished outcome `nullDeref`. -/

/-- Position of the last hyphen in the character list, mirroring the
right-to-left scan of mport.c lines 594-601; none plays the role of the
C sentinel loc == -1. -/
def lastDashLoc : List Char → Option Nat
  | [] => none
  | c :: cs =>
    match lastDashLoc cs with
    | some i => some (i + 1)
    | none => if c = '-' then some 0 else none

/-- Outcome of the lookup/fallback phase of install (mport.c lines
592-616). -/
inductive ResolveResult where
  /-- a non-empty entry vector survives to the disambiguation phase -/
  | ok (entries : List IdxEntry)
  /-- errx(4, "Package %s not found in the index.") terminated the process -/
  | exitNotFound
  /-- the C code dereferenced the NULL entry terminator (or passed a NULL
  version to strcmp): undefined behaviour, typically a crash -/
  | nullDeref
  deriving Repr, DecidableEq

/-- The lookup/fallback phase of install, embedded straight from mport.c
lines 592-616.  The index collaborator is the function `lookup` (the
mport_index_lookup_pkgname wrapper lookupIndex). -/
def resolveSpec (lookup : String → List IdxEntry) (spec : String) : ResolveResult :=
  match lookup spec with
  | e :: rest => ResolveResult.ok (e :: rest)
  | [] =>
    match lastDashLoc spec.toList with
    | some loc =>
      if 0 < loc then
        -- d = the first loc characters, v = everything after the hyphen
        match lookup (String.mk (spec.toList.take loc)) with
        | [] =>
          -- line 608 reads (*indexEntry)->version with *indexEntry == NULL,
          -- before the emptiness check of line 615 can run
          ResolveResult.nullDeref
        | e :: rest =>
          match e.version with
          | none => ResolveResult.nullDeref -- strcmp(v, NULL)
          | some ev =>
            if ev = String.mk (spec.toList.drop (loc + 1)) then
              ResolveResult.ok (e :: rest)
            else ResolveResult.exitNotFound
      else ResolveResult.exitNotFound
    | none => ResolveResult.exitNotFound

/-- The re-prompt guard of mport.c line 627, with item = N the number of
candidate entries: the operator is re-prompted while scanf parses
nothing (none), or choice > item, or choice < 0.  Note the test is
choice > item, not choice >= item. -/
def promptRejects (item : Int) (input : Option Int) : Bool :=
  match input with
  | none => true
  | some choice => decide (item < choice) || decide (choice < 0)

/-- The prompt loop of mport.c lines 627-629 run against a finite stream
of scanf reads: the first accepted read is returned; none when the
stream runs out (the C loop would then keep blocking on scanf). -/
def promptLoop (item : Int) : List (Option Int) → Option Int
  | [] => none
  | i :: rest => if promptRejects item i then promptLoop item rest else i

/-- The selection walk of mport.c lines 630-636: the entry pointer is
advanced exactly choice times over the NULL-terminated entry vector, so
the walk stops at the choice-th entry, or at the NULL terminator (none)
when choice equals the entry count. -/
def selectEntry (es : List IdxEntry) (choice : Nat) : Option IdxEntry :=
  es[choice]?

/-- How one call of install (mport.c lines 584-644) ends, as seen by
main. -/
inductive InstallOutcome where
  /-- errx terminated the whole process with this exit status -/
  | exited (code : Nat)
  /-- a NULL entry pointer was dereferenced (undefined behaviour) -/
  | nullDeref
  /-- the disambiguation prompt never received an acceptable read -/
  | blocked
  /-- install returned resultCode to its caller -/
  | returned (code : Int)
  deriving Repr, DecidableEq

/-- One call of install (mport.c lines 584-644): resolve the specifier,
disambiguate interactively when more than one entry remains (line 618:
indexEntry[1] != NULL), and hand the selected pkgname/version pair to
the store installer mport_install_depends (line 639), whose result code
is returned. -/
def installOne (lookup : String → List IdxEntry)
    (installDepends : String → Option String → Int)
    (inputs : List (Option Int)) (spec : String) : InstallOutcome :=
  match resolveSpec lookup spec with
  | ResolveResult.exitNotFound => InstallOutcome.exited 4
  | ResolveResult.nullDeref => InstallOutcome.nullDeref
  | ResolveResult.ok es =>
    match es with
    | [] => InstallOutcome.nullDeref -- unreachable: ok carries a non-empty vector
    | e :: rest =>
      if rest = [] then
        InstallOutcome.returned (installDepends e.pkgname e.version)
      else
        match promptLoop ((es.length : Int)) inputs with
        | none => InstallOutcome.blocked
        | some choice =>
          match selectEntry es choice.toNat with
          | none => InstallOutcome.nullDeref -- walked onto the NULL terminator
          | some sel => InstallOutcome.returned (installDepends sel.pkgname sel.version)

/-- Modelled from the spec: MPORT_ERR_FATAL, the generic fatal result
code of the external libmport header mport.h (the header is not part of
src/).  The spec only relies on it being a non-zero process-level
failure code; libmport defines it as 1. -/
def MPORT_ERR_FATAL : Int := 1

/-- How the install branch of main ends for the whole batch. -/
inductive BatchOutcome where
  /-- the process was terminated mid-batch by errx inside install -/
  | exited (code : Nat)
  /-- undefined behaviour (NULL dereference) inside install -/
  | nullDeref
  /-- install blocked forever on the prompt -/
  | blocked
  /-- main reached exit(resultCode) at line 369 with this code -/
  | finished (code : Int)
  deriving Repr, DecidableEq

/-- The install branch of main (mport.c lines 154-164) together with
exit(resultCode) at line 369: resultCode starts as acc (MPORT_ERR_FATAL
from line 85) and is overwritten by every non-zero per-specifier result;
a process-terminating outcome inside install ends the batch at once,
leaving later specifiers unprocessed. -/
def installBatch (lookup : String → List IdxEntry)
    (installDepends : String → Option String → Int)
    (inputs : List (Option Int)) (acc : Int) : List String → BatchOutcome
  | [] => BatchOutcome.finished acc
  | s :: rest =>
    match installOne lookup installDepends inputs s with
    | InstallOutcome.exited c => BatchOutcome.exited c
    | InstallOutcome.nullDeref => BatchOutcome.nullDeref
    | InstallOutcome.blocked => BatchOutcome.blocked
    | InstallOutcome.returned c =>
      installBatch lookup installDepends inputs (if c ≠ 0 then c else acc) rest

/-- Index used by the C4 counterexample: "good" has one entry, nothing
else resolves. -/
def c4lookup (s : String) : List IdxEntry :=
  if s = "good" then [⟨"good", some "1.0"⟩] else []

/-! ## Dependency-Ordered Bulk Remover (mport.c, deleteAll, lines 746-794)

The installed store is a list of package names (the snapshot order of
mport_pkgmeta_list); the dependency edges of the store are a list of
pairs, (q, p) meaning the installed package q depends on p.  The store
query mport_pkgmeta_get_updepends(pack) returns the installed packages
that depend on pack, evaluated against the LIVE store.  The external
deletion command (mport.delete, invoked through delete()) removes its
package from the live store; the set of names on which the command
fails is the parameter failSet (on failure the package stays
installed).  The outer while(1) loop of the C code has no bound, so it
is run on explicit fuel: a none result means the fuel was exhausted
with the loop still running. -/

/-- mport_pkgmeta_get_updepends against the live store: the installed
packages that depend on p. -/
def updepends (edges : List (String × String)) (store : List String)
    (p : String) : List String :=
  store.filter (fun q => (q, p) ∈ edges)

/-- One pass of deleteAll (the inner while of mport.c lines 766-780)
over the snapshot, carrying the live store and the running counters
(total attempted deletions, delete failures, packages skipped this
pass).  A package whose live up-dependency list is empty is deleted on
the spot (total++, and errors++ when the external delete fails, the
package then staying installed); otherwise it is skipped (skip++). -/
def runPass (edges : List (String × String)) (failSet : List String) :
    List String → List String → Nat → Nat → Nat →
      List String × Nat × Nat × Nat
  | [], store, total, errors, skip => (store, total, errors, skip)
  | p :: snap, store, total, errors, skip =>
    if updepends edges store p = [] then
      if p ∈ failSet then
        runPass edges failSet snap store (total + 1) (errors + 1) skip
      else
        runPass edges failSet snap (store.erase p) (total + 1) errors skip
    else
      runPass edges failSet snap store total errors (skip + 1)

/-- The outer while(1) of deleteAll (mport.c lines 764-788), on fuel:
run a pass over the current snapshot; stop when the pass skipped
nothing, otherwise re-fetch the snapshot (the live store) and repeat.
Returns the final store and the total/errors counters, or none when the
fuel runs out with the loop still going. -/
def deleteAllLoop (edges : List (String × String)) (failSet : List String) :
    Nat → List String → Nat → Nat → Option (List String × Nat × Nat)
  | 0, _, _, _ => none
  | fuel + 1, store, total, errors =>
    if (runPass edges failSet store store total errors 0).2.2.2 = 0 then
      some ((runPass edges failSet store store total errors 0).1,
        (runPass edges failSet store store total errors 0).2.1,
        (runPass edges failSet store store total errors 0).2.2.1)
    else
      deleteAllLoop edges failSet fuel
        (runPass edges failSet store store total errors 0).1
        (runPass edges failSet store store total errors 0).2.1
        (runPass edges failSet store store total errors 0).2.2.1

/-- What a whole deleteAll invocation reports. -/
inductive DeleteAllResult where
  /-- the store was empty: "No packages installed.", return 1 (line 759) -/
  | noPackages
  /-- the summary printf of line 792: deleted (printed as
  total - errors), errored, total -/
  | summary (deleted errored total : Nat)
  /-- the while(1) loop was still running when the fuel ran out -/
  | outOfFuel
  deriving Repr, DecidableEq

/-- deleteAll (mport.c lines 746-794): an empty snapshot is reported as
an error before the loop is entered; otherwise the pass loop runs and
the summary of line 792 is printed with deleted = total - errors. -/
def deleteAll (edges : List (String × String)) (failSet : List String)
    (fuel : Nat) (store : List String) : DeleteAllResult :=
  if store = [] then DeleteAllResult.noPackages
  else
    match deleteAllLoop edges failSet fuel store 0 0 with
    | none => DeleteAllResult.outOfFuel
    | some (_, total, errors) => DeleteAllResult.summary (total - errors) errors total

/-- The two-package dependency cycle of the C1 failing input: A depends
on B and B depends on A. -/
def cycEdges : List (String × String) := [("A", "B"), ("B", "A")]

/-- The acyclic two-package store of the C6/C7 scenarios: A depends on
B (so B has the single dependent A, and A has none). -/
def chainEdges : List (String × String) := [("A", "B")]

end Mport

namespace Mport

/-! ## Theorems -/

/-- C2: with all three data present (installed version, installed
os_release, entry version), the Update Diff Engine emits a report line
for the pair iff the comparator orders the installed version strictly
below the entry version, or the installed os_release strictly below the
system os_release; the two disjuncts are independent. -/
theorem update_diff_outdated_iff
    (cmp : Option String → Option String → Int) (sysOs : String)
    (nm pv pr : String) (en ev : String) :
    outdatedFlag cmp sysOs ⟨nm, some pv, some pr⟩ ⟨en, some ev⟩ = true ↔
      (cmp (some pv) (some ev) < 0 ∨ cmp (some pr) (some sysOs) < 0) := by
  unfold outdatedFlag outdatedEval
  by_cases h1 : cmp (some pv) (some ev) < 0 <;> simp [h1]

/-- C8 failing input: the null guards of mport.list.c lines 143-144
check the wrong fields, so the comparator IS invoked with missing data.
With an installed package whose os_release is NULL (but version
present), cmp is called as cmp(NULL, system os_release); with an
installed package whose version is NULL (but the entry version
present), cmp is called as cmp(NULL, entry version). -/
theorem update_diff_cmp_called_with_null :
    ((Option.none, some "3.0") ∈
        (outdatedEval cmpByLength "3.0" ⟨"a", some "1.0", none⟩ ⟨"a", some "1.0"⟩).2)
    ∧ ((Option.none, some "2.0") ∈
        (outdatedEval cmpByLength "3.0" ⟨"b", none, some "1.0"⟩ ⟨"b", some "2.0"⟩).2) := by
  constructor <;> decide

/-- C5: when the verbatim lookup is empty, the specifier splits at its
rightmost hyphen at a position loc > 0, and the re-query with the
candidate name (the first loc characters) returns a first entry of
version ev, the resolver fails with the not-found exit exactly when ev
is not textually equal to the embedded version (the characters after
the hyphen), and resolves to the re-query result when it is equal. -/
theorem resolver_fallback_version_check
    (lookup : String → List IdxEntry) (spec : String) (loc : Nat)
    (e : IdxEntry) (rest : List IdxEntry) (ev : String)
    (h0 : lookup spec = [])
    (h1 : lastDashLoc spec.toList = some loc) (h2 : 0 < loc)
    (h3 : lookup (String.mk (spec.toList.take loc)) = e :: rest)
    (h4 : e.version = some ev) :
    (resolveSpec lookup spec = ResolveResult.exitNotFound ↔
        ev ≠ String.mk (spec.toList.drop (loc + 1)))
    ∧ (ev = String.mk (spec.toList.drop (loc + 1)) →
        resolveSpec lookup spec = ResolveResult.ok (e :: rest)) := by
  unfold resolveSpec
  rw [h0, h1]
  simp only [h2, if_true, h3, h4]
  by_cases h5 : ev = String.mk (spec.toList.drop (loc + 1)) <;> simp [h5]

/-- Witness for C5, the scenario the claim names: the index maps "foo"
to the single entry (foo, 1.2); the specifier "foo-1.2" resolves to
that entry, while against an index whose only "foo" entry has version
1.3 the same specifier fails with the not-found exit. -/
theorem resolver_fallback_version_check_witness :
    resolveSpec (fun s => if s = "foo" then [⟨"foo", some "1.2"⟩] else [])
        "foo-1.2" = ResolveResult.ok [⟨"foo", some "1.2"⟩]
    ∧ resolveSpec (fun s => if s = "foo" then [⟨"foo", some "1.3"⟩] else [])
        "foo-1.2" = ResolveResult.exitNotFound := by
  constructor
  · exact (resolver_fallback_version_check
      (fun s => if s = "foo" then [⟨"foo", some "1.2"⟩] else [])
      "foo-1.2" 3 ⟨"foo", some "1.2"⟩ [] "1.2"
      (by decide) (by decide) (by decide) (by decide) (by decide)).2 (by decide)
  · exact (resolver_fallback_version_check
      (fun s => if s = "foo" then [⟨"foo", some "1.3"⟩] else [])
      "foo-1.2" 3 ⟨"foo", some "1.3"⟩ [] "1.3"
      (by decide) (by decide) (by decide) (by decide) (by decide)).1.mpr (by decide)

/-- C10: when the verbatim lookup is empty, the specifier splits at a
rightmost hyphen at loc > 0, and the re-query with the candidate name
is ALSO empty, mport.c line 608 reads the version field of the first
entry of the empty result before the emptiness check of line 615 can
run: the embedded resolver reaches the NULL dereference outcome. -/
theorem resolver_fallback_null_deref
    (lookup : String → List IdxEntry) (spec : String) (loc : Nat)
    (h0 : lookup spec = [])
    (h1 : lastDashLoc spec.toList = some loc) (h2 : 0 < loc)
    (h3 : lookup (String.mk (spec.toList.take loc)) = []) :
    resolveSpec lookup spec = ResolveResult.nullDeref := by
  unfold resolveSpec
  rw [h0, h1]
  simp only [h2, if_true, h3]

/-- Witness for C10: an entirely empty index and the specifier
"foo-1.2". -/
theorem resolver_fallback_null_deref_witness :
    resolveSpec (fun _ => []) "foo-1.2" = ResolveResult.nullDeref :=
  resolver_fallback_null_deref (fun _ => []) "foo-1.2" 3
    (by decide) (by decide) (by decide) (by decide)

/-- C3 failing input: with N = 2 candidate entries, operator input 2 is
NOT rejected by the guard of mport.c line 627 (the test is choice >
item, not choice >= item), so the prompt loop exits on the out-of-range
value 2 and the selection walk of lines 630-636 lands on the NULL
terminator of the entry vector, which install then dereferences; inputs
-1 and non-numeric are rejected as the claim states, and in-range
inputs select the corresponding entry. -/
theorem prompt_accepts_count_selects_null_terminator :
    promptRejects 2 (some 2) = false
    ∧ promptLoop 2 [some 2] = some 2
    ∧ selectEntry [⟨"a", some "1.0"⟩, ⟨"a", some "2.0"⟩] 2 = none
    ∧ installOne (fun s => if s = "a" then [⟨"a", some "1.0"⟩, ⟨"a", some "2.0"⟩] else [])
        (fun _ _ => 0) [some 2] "a" = InstallOutcome.nullDeref
    ∧ promptRejects 2 (some (-1)) = true
    ∧ promptRejects 2 none = true
    ∧ selectEntry [⟨"a", some "1.0"⟩, ⟨"a", some "2.0"⟩] 1 = some ⟨"a", some "2.0"⟩ := by
  refine ⟨by decide, by decide, by decide, by decide, by decide, by decide, by decide⟩

/-- C4 counterexample: against an index lacking "bad" but holding
"good" (whose install would return 0), the batch ["bad", "good"] is
terminated by errx with process exit 4 at the FIRST specifier: the
remaining specifier is never processed and no aggregated result is
produced, contradicting the claim that a NotFound failure is fatal only
for its own specifier. -/
theorem notfound_aborts_whole_batch :
    installBatch c4lookup (fun _ _ => 0) [] MPORT_ERR_FATAL ["bad", "good"]
        = BatchOutcome.exited 4
    ∧ installOne c4lookup (fun _ _ => 0) [] "good" = InstallOutcome.returned 0 := by
  refine ⟨by decide, by decide⟩

/-- C4 amended: a specifier on which install ends the process (errx,
as the NotFound paths do) aborts the whole batch with that exit status,
the remaining specifiers unprocessed; when instead every install in the
batch returns normally, all specifiers are processed and the overall
result is the last non-zero per-specifier code (the initial
accumulator when every code is zero). -/
theorem batch_exit_propagates_and_last_nonzero_wins
    (lookup : String → List IdxEntry) (installDepends : String → Option String → Int)
    (inputs : List (Option Int)) (acc c : Int) (ec : Nat) (s : String)
    (specs rest : List String) (codes : String → Int)
    (hexit : installOne lookup installDepends inputs s = InstallOutcome.exited ec)
    (hret : ∀ t ∈ specs, installOne lookup installDepends inputs t
        = InstallOutcome.returned (codes t)) :
    installBatch lookup installDepends inputs c (s :: rest) = BatchOutcome.exited ec
    ∧ installBatch lookup installDepends inputs acc specs =
        BatchOutcome.finished
          (specs.foldl (fun a t => if codes t ≠ 0 then codes t else a) acc) := by
  constructor
  · unfold installBatch
    rw [hexit]
  · induction specs generalizing acc with
    | nil => rfl
    | cons t ts ih =>
      have ht := hret t (List.mem_cons_self t ts)
      unfold installBatch
      rw [ht]
      simp only [List.foldl_cons]
      exact ih (if codes t ≠ 0 then codes t else acc)
        (fun u hu => hret u (List.mem_cons_of_mem t hu))

/-- Witness for the amended C4: against an index holding "x" (install
result 5) and "y" (install result 0) but not "bad", the batch starting
with "bad" exits with status 4, and the batch ["x", "y"] finishes with
overall result 5 (the last non-zero code). -/
theorem batch_exit_propagates_witness :
    installBatch
        (fun s => if s = "x" then [⟨"x", some "1"⟩]
          else if s = "y" then [⟨"y", some "1"⟩] else [])
        (fun n _ => if n = "x" then 5 else 0) [] MPORT_ERR_FATAL ["bad", "x", "y"]
        = BatchOutcome.exited 4
    ∧ installBatch
        (fun s => if s = "x" then [⟨"x", some "1"⟩]
          else if s = "y" then [⟨"y", some "1"⟩] else [])
        (fun n _ => if n = "x" then 5 else 0) [] MPORT_ERR_FATAL ["x", "y"]
        = BatchOutcome.finished 5 := by
  have h := batch_exit_propagates_and_last_nonzero_wins
    (fun s => if s = "x" then [⟨"x", some "1"⟩]
      else if s = "y" then [⟨"y", some "1"⟩] else [])
    (fun n _ => if n = "x" then 5 else 0) [] MPORT_ERR_FATAL MPORT_ERR_FATAL 4 "bad"
    ["x", "y"] ["x", "y"] (fun t => if t = "x" then 5 else 0)
    (by decide) (by decide)
  exact ⟨h.1, by simpa using h.2⟩

/-- C9: resultCode is initialized to MPORT_ERR_FATAL (mport.c line 85)
and is only overwritten by a non-zero per-item result (lines 160-164),
so a batch in which every per-specifier install returns 0 reaches
exit(resultCode) at line 369 with the initial MPORT_ERR_FATAL, which is
not zero: a fully successful batch exits non-zero. -/
theorem all_success_batch_exits_fatal
    (lookup : String → List IdxEntry) (installDepends : String → Option String → Int)
    (inputs : List (Option Int)) (specs : List String)
    (h : ∀ s ∈ specs, installOne lookup installDepends inputs s
        = InstallOutcome.returned 0) :
    installBatch lookup installDepends inputs MPORT_ERR_FATAL specs
        = BatchOutcome.finished MPORT_ERR_FATAL
    ∧ MPORT_ERR_FATAL ≠ 0 := by
  refine ⟨?_, by decide⟩
  induction specs with
  | nil => rfl
  | cons t ts ih =>
    have ht := h t (List.mem_cons_self t ts)
    unfold installBatch
    rw [ht]
    simpa using ih (fun u hu => h u (List.mem_cons_of_mem t hu))

/-- Witness for C9: the one-specifier batch ["good"] against the index
holding "good", whose install returns 0, exits with MPORT_ERR_FATAL
(that is, 1, not 0). -/
theorem all_success_batch_exits_fatal_witness :
    installBatch c4lookup (fun _ _ => 0) [] MPORT_ERR_FATAL ["good"]
        = BatchOutcome.finished MPORT_ERR_FATAL
    ∧ MPORT_ERR_FATAL ≠ 0 :=
  all_success_batch_exits_fatal c4lookup (fun _ _ => 0) [] ["good"] (by decide)

/-- Helper: the live store only shrinks during a pass. -/
theorem runPass_fst_sublist (edges : List (String × String)) (failSet : List String)
    (snap : List String) :
    ∀ (store : List String) (t e s : Nat),
      List.Sublist (runPass edges failSet snap store t e s).1 store := by
  induction snap with
  | nil => intro store t e s; exact List.Sublist.refl store
  | cons p snap ih =>
    intro store t e s
    simp only [runPass]
    by_cases h1 : updepends edges store p = []
    · rw [if_pos h1]
      by_cases h2 : p ∈ failSet
      · rw [if_pos h2]; exact ih store (t + 1) (e + 1) s
      · rw [if_neg h2]
        exact (ih (store.erase p) (t + 1) e s).trans (List.erase_sublist p store)
    · rw [if_neg h1]; exact ih store t e (s + 1)

/-- Helper: the skip counter never decreases during a pass. -/
theorem runPass_skip_le (edges : List (String × String)) (failSet : List String)
    (snap : List String) :
    ∀ (store : List String) (t e s : Nat),
      s ≤ (runPass edges failSet snap store t e s).2.2.2 := by
  induction snap with
  | nil => intro store t e s; exact le_refl s
  | cons p snap ih =>
    intro store t e s
    simp only [runPass]
    by_cases h1 : updepends edges store p = []
    · rw [if_pos h1]
      by_cases h2 : p ∈ failSet
      · rw [if_pos h2]; exact ih store (t + 1) (e + 1) s
      · rw [if_neg h2]; exact ih (store.erase p) (t + 1) e s
    · rw [if_neg h1]
      exact le_trans (Nat.le_succ s) (ih store t e (s + 1))

/-- Helper: the error counter stays below the total counter during a
pass (each failure also counts as an attempt). -/
theorem runPass_counters_le (edges : List (String × String)) (failSet : List String)
    (snap : List String) :
    ∀ (store : List String) (t e s : Nat), e ≤ t →
      (runPass edges failSet snap store t e s).2.2.1 ≤
        (runPass edges failSet snap store t e s).2.1 := by
  induction snap with
  | nil => intro store t e s hle; exact hle
  | cons p snap ih =>
    intro store t e s hle
    simp only [runPass]
    by_cases h1 : updepends edges store p = []
    · rw [if_pos h1]
      by_cases h2 : p ∈ failSet
      · rw [if_pos h2]; exact ih store (t + 1) (e + 1) s (Nat.succ_le_succ hle)
      · rw [if_neg h2]; exact ih (store.erase p) (t + 1) e s (le_trans hle (Nat.le_succ t))
    · rw [if_neg h1]; exact ih store t e (s + 1) hle

/-- Helper: with the external delete never failing, a pass never
touches the error counter. -/
theorem runPass_errors_const (edges : List (String × String)) (snap : List String) :
    ∀ (store : List String) (t e s : Nat),
      (runPass edges [] snap store t e s).2.2.1 = e := by
  induction snap with
  | nil => intro store t e s; rfl
  | cons p snap ih =>
    intro store t e s
    simp only [runPass]
    by_cases h1 : updepends edges store p = []
    · rw [if_pos h1, if_neg (List.not_mem_nil p)]
      exact ih (store.erase p) (t + 1) e s
    · rw [if_neg h1]; exact ih store t e (s + 1)

/-- C7 amended: the per-pass safety invariant of deleteAll.  If some
installed package Q depends on P and Q is still installed when the pass
ends, then P was not deleted during that pass: a package is never
removed while a dependent of it remains installed.  (The pass queries
the LIVE store, so P may well be deleted later in the SAME pass once Q
is gone; the counterexample shows that happening.) -/
theorem never_deleted_while_dependent_remains
    (edges : List (String × String)) (failSet : List String) (P Q : String)
    (hedge : (Q, P) ∈ edges) (snap : List String) :
    ∀ (store : List String) (t e s : Nat),
      P ∈ store →
      Q ∈ (runPass edges failSet snap store t e s).1 →
      P ∈ (runPass edges failSet snap store t e s).1 := by
  induction snap with
  | nil => intro store t e s hP _; exact hP
  | cons p snap ih =>
    intro store t e s hP hQ
    simp only [runPass] at hQ ⊢
    by_cases h1 : updepends edges store p = []
    · rw [if_pos h1] at hQ ⊢
      by_cases h2 : p ∈ failSet
      · rw [if_pos h2] at hQ ⊢; exact ih store (t + 1) (e + 1) s hP hQ
      · rw [if_neg h2] at hQ ⊢
        by_cases hpP : p = P
        · subst hpP
          exfalso
          have hQstore : Q ∈ store.erase p :=
            (runPass_fst_sublist edges failSet snap (store.erase p) (t + 1) e s).mem hQ
          have hQstore2 : Q ∈ store := (List.erase_sublist p store).mem hQstore
          have hQdep : Q ∈ updepends edges store p := by
            simp only [updepends, List.mem_filter, decide_eq_true_eq]
            exact ⟨hQstore2, hedge⟩
          rw [h1] at hQdep
          cases hQdep
        · have hP2 : P ∈ store.erase p := (List.mem_erase_of_ne (Ne.symm hpP)).mpr hP
          exact ih (store.erase p) (t + 1) e s hP2 hQ
    · rw [if_neg h1] at hQ ⊢; exact ih store t e (s + 1) hP hQ

/-- Witness for the amended C7: on the store [A, B] where A depends on
B and the external delete fails on A, the pass leaves A installed, and
the invariant yields that B (depended on by the surviving A) is also
still installed after the pass. -/
theorem never_deleted_while_dependent_remains_witness :
    "B" ∈ (runPass chainEdges ["A"] ["A", "B"] ["A", "B"] 0 0 0).1 :=
  never_deleted_while_dependent_remains chainEdges ["A"] "B" "A" (by decide)
    ["A", "B"] ["A", "B"] 0 0 0 (by decide) (by decide)

/-- C7 counterexample: on the store [A, B] where A depends on B (so B
has the one dependent A) and deletes succeed, a SINGLE pass deletes
both packages: A is deleted first, and B, re-queried against the live
store from which A is already gone, is deleted later in the same pass —
not on the first pass after the pass of its dependent, as the claim
states.  With fuel for exactly one pass the loop already finishes with
the store empty and two deletions. -/
theorem dependent_deleted_in_same_pass :
    deleteAllLoop chainEdges [] 1 ["A", "B"] 0 0 = some ([], 2, 0) := by decide

/-- Helper: a snapshot package with no dependents in the pass-start
store is deleted during the pass (external deletes succeeding). -/
theorem runPass_deletes_free_pkg
    (edges : List (String × String)) (store0 : List String) (hnd : store0.Nodup)
    (p : String) (hfree : updepends edges store0 p = []) (snap : List String) :
    ∀ (store : List String) (t e s : Nat), p ∈ snap → List.Sublist store store0 →
      p ∉ (runPass edges [] snap store t e s).1 := by
  induction snap with
  | nil => intro store t e s hmem _; cases hmem
  | cons q snap ih =>
    intro store t e s hmem hsub
    simp only [runPass]
    by_cases hqp : q = p
    · subst hqp
      have hup : updepends edges store q = [] := by
        have hsubf : List.Sublist (updepends edges store q) (updepends edges store0 q) :=
          hsub.filter _
        rw [hfree] at hsubf
        exact List.sublist_nil.mp hsubf
      rw [if_pos hup, if_neg (List.not_mem_nil q)]
      intro hfin
      have h1 : q ∈ store.erase q :=
        (runPass_fst_sublist edges [] snap (store.erase q) (t + 1) e s).mem hfin
      have h2 : store.Nodup := hnd.sublist hsub
      exact absurd rfl ((List.Nodup.mem_erase_iff h2).mp h1).1
    · have hmem2 : p ∈ snap := by
        rcases List.mem_cons.mp hmem with h | h
        · exact absurd h.symm hqp
        · exact h
      by_cases h1 : updepends edges store q = []
      · rw [if_pos h1, if_neg (List.not_mem_nil q)]
        exact ih (store.erase q) (t + 1) e s hmem2 ((List.erase_sublist q store).trans hsub)
      · rw [if_neg h1]
        exact ih store t e (s + 1) hmem2 hsub

/-- Helper: in a store whose dependency relation admits a rank function
(acyclicity), some installed package has no installed dependents. -/
theorem exists_updepends_free
    (edges : List (String × String)) (store : List String) (rank : String → Nat)
    (hne : store ≠ [])
    (hrank : ∀ q ∈ store, ∀ p ∈ store, (q, p) ∈ edges → rank q < rank p) :
    ∃ p ∈ store, updepends edges store p = [] := by
  cases hm : List.argmin rank store with
  | none => exact absurd (List.argmin_eq_none.mp hm) hne
  | some m =>
    have hmem : m ∈ List.argmin rank store := by rw [hm]; rfl
    refine ⟨m, List.argmin_mem hmem, ?_⟩
    rw [updepends, List.filter_eq_nil_iff]
    intro q hq
    simp only [decide_eq_true_eq]
    intro hqm
    have h1 := hrank q hq m (List.argmin_mem hmem) hqm
    have h2 := List.le_of_mem_argmin hq hmem
    omega

/-- Helper: on a non-empty acyclic store a pass strictly shrinks the
store (external deletes succeeding). -/
theorem runPass_shrinks
    (edges : List (String × String)) (store : List String) (rank : String → Nat)
    (hne : store ≠ []) (hnd : store.Nodup)
    (hrank : ∀ q ∈ store, ∀ p ∈ store, (q, p) ∈ edges → rank q < rank p)
    (t e : Nat) :
    (runPass edges [] store store t e 0).1.length < store.length := by
  obtain ⟨p, hp, hfree⟩ := exists_updepends_free edges store rank hne hrank
  have hnot := runPass_deletes_free_pkg edges store hnd p hfree store store t e 0 hp
    (List.Sublist.refl store)
  have hsub := runPass_fst_sublist edges [] store store t e 0
  rcases Nat.lt_or_ge (runPass edges [] store store t e 0).1.length store.length with h | h
  · exact h
  · exfalso
    have hlen : (runPass edges [] store store t e 0).1.length = store.length :=
      le_antisymm hsub.length_le h
    rw [hsub.eq_of_length hlen] at hnot
    exact hnot hp

/-- Helper: a pass that skips nothing has deleted every snapshot
package, leaving the store empty (external deletes succeeding,
snapshot = pass-start store). -/
theorem runPass_skip_zero_empty (edges : List (String × String)) :
    ∀ (store : List String) (t e : Nat), store.Nodup →
      (runPass edges [] store store t e 0).2.2.2 = 0 →
      (runPass edges [] store store t e 0).1 = [] := by
  intro store
  induction store with
  | nil => intro t e _ _; rfl
  | cons p rest ih =>
    intro t e hnd hskip
    simp only [runPass] at hskip ⊢
    by_cases h1 : updepends edges (p :: rest) p = []
    · rw [if_pos h1, if_neg (List.not_mem_nil p)] at hskip ⊢
      rw [List.erase_cons_head] at hskip ⊢
      exact ih (t + 1) e (List.Nodup.of_cons hnd) hskip
    · rw [if_neg h1] at hskip
      have := runPass_skip_le edges [] rest (p :: rest) t e (0 + 1)
      omega

/-- Helper: on an acyclic nodup store with fuel one more than the store
size, the pass loop of deleteAll terminates with the store empty and
the error counter untouched (external deletes succeeding). -/
theorem deleteAllLoop_acyclic
    (edges : List (String × String)) (rank : String → Nat) :
    ∀ (n : Nat) (store : List String) (t e : Nat),
      store.length ≤ n → store.Nodup →
      (∀ q ∈ store, ∀ p ∈ store, (q, p) ∈ edges → rank q < rank p) →
      ∃ t2, deleteAllLoop edges [] (n + 1) store t e = some ([], t2, e) := by
  intro n
  induction n with
  | zero =>
    intro store t e hlen _ _
    have hnil : store = [] := List.length_eq_zero.mp (Nat.le_zero.mp hlen)
    subst hnil
    exact ⟨t, rfl⟩
  | succ n ih =>
    intro store t e hlen hnd hrank
    by_cases hne : store = []
    · subst hne; exact ⟨t, rfl⟩
    · rw [deleteAllLoop]
      rcases hpass : runPass edges [] store store t e 0 with ⟨ps, pt, pe, pskip⟩
      dsimp only
      have hpe : pe = e := by
        have h0 := runPass_errors_const edges store store t e 0
        rw [hpass] at h0
        exact h0
      by_cases hskip : pskip = 0
      · subst hskip
        have hempty : ps = [] := by
          have h0 := runPass_skip_zero_empty edges store t e hnd (by rw [hpass])
          rw [hpass] at h0
          exact h0
        rw [if_pos rfl, hempty, hpe]
        exact ⟨pt, rfl⟩
      · rw [if_neg hskip]
        have hsub : List.Sublist ps store := by
          have h0 := runPass_fst_sublist edges [] store store t e 0
          rw [hpass] at h0
          exact h0
        have hlt : ps.length < store.length := by
          have h0 := runPass_shrinks edges store rank hne hnd hrank t e
          rw [hpass] at h0
          exact h0
        rw [hpe]
        exact ih ps pt e (by omega) (hnd.sublist hsub)
          (fun q hq p hp hqp => hrank q (hsub.mem hq) p (hsub.mem hp) hqp)

/-- Helper: any terminating run of the pass loop keeps errors bounded
by total, whatever the failure set. -/
theorem deleteAllLoop_errors_le
    (edges : List (String × String)) (failSet : List String) :
    ∀ (fuel : Nat) (store : List String) (t e : Nat)
      (store2 : List String) (t2 e2 : Nat),
      e ≤ t → deleteAllLoop edges failSet fuel store t e = some (store2, t2, e2) →
      e2 ≤ t2 := by
  intro fuel
  induction fuel with
  | zero => intro store t e s2 t2 e2 _ h; cases h
  | succ n ih =>
    intro store t e s2 t2 e2 hle h
    rw [deleteAllLoop] at h
    rcases hpass : runPass edges failSet store store t e 0 with ⟨ps, pt, pe, pskip⟩
    rw [hpass] at h
    dsimp only at h
    have hple : pe ≤ pt := by
      have := runPass_counters_le edges failSet store store t e 0 hle
      rw [hpass] at this
      exact this
    by_cases hskip : pskip = 0
    · subst hskip
      simp only [if_pos rfl, Option.some.injEq, Prod.mk.injEq] at h
      obtain ⟨-, ht2, he2⟩ := h
      omega
    · rw [if_neg hskip] at h
      exact ih ps pt pe s2 t2 e2 hple h

/-- C6: on a non-empty installed store with no duplicate names whose
dependency relation is acyclic (witnessed by a rank every edge strictly
increases) and with the external deletes succeeding, deleteAll with
fuel one more than the store size terminates with the store left empty
and prints the summary (total, 0, total); moreover every terminating
run, whatever the set of failing deletes, prints counts satisfying
deleted + errored = total (total counting every attempted deletion
across all passes). -/
theorem deleteall_acyclic_empties_store
    (edges : List (String × String)) (store : List String) (rank : String → Nat)
    (hne : store ≠ []) (hnd : store.Nodup)
    (hrank : ∀ q ∈ store, ∀ p ∈ store, (q, p) ∈ edges → rank q < rank p) :
    (∃ total, deleteAllLoop edges [] (store.length + 1) store 0 0 = some ([], total, 0)
        ∧ deleteAll edges [] (store.length + 1) store
            = DeleteAllResult.summary total 0 total)
    ∧ (∀ failSet fuel d er tt,
        deleteAll edges failSet fuel store = DeleteAllResult.summary d er tt →
        d + er = tt) := by
  constructor
  · obtain ⟨t2, hloop⟩ :=
      deleteAllLoop_acyclic edges rank store.length store 0 0 (le_refl _) hnd hrank
    refine ⟨t2, hloop, ?_⟩
    unfold deleteAll
    rw [if_neg hne, hloop]
    rfl
  · intro failSet fuel d er tt h
    unfold deleteAll at h
    rw [if_neg hne] at h
    rcases hloop : deleteAllLoop edges failSet fuel store 0 0 with - | res
    · rw [hloop] at h; cases h
    · rcases res with ⟨s2, t2, e2⟩
      rw [hloop] at h
      have hle : e2 ≤ t2 :=
        deleteAllLoop_errors_le edges failSet fuel store 0 0 s2 t2 e2 (le_refl 0) hloop
      simp only [DeleteAllResult.summary.injEq] at h
      obtain ⟨hd, her, htt⟩ := h
      omega

/-- Witness for C6: the two-package store [A, B] with A depending on B,
ranked by A before B: deleteAll with fuel 3 empties the store in one
pass and reports deleted 2, errored 0, total 2, with 2 + 0 = 2. -/
theorem deleteall_acyclic_empties_store_witness :
    deleteAll chainEdges [] 3 ["A", "B"] = DeleteAllResult.summary 2 0 2
    ∧ (2 : Nat) + 0 = 2 := by
  have h := deleteall_acyclic_empties_store chainEdges ["A", "B"]
    (fun s => if s = "A" then 0 else 1) (by decide) (by decide) (by decide)
  obtain ⟨total, hloop, hres⟩ := h.1
  have hlen : (["A", "B"] : List String).length + 1 = 3 := rfl
  rw [hlen] at hloop hres
  have hval : deleteAllLoop chainEdges [] 3 ["A", "B"] 0 0 = some ([], 2, 0) := by decide
  rw [hval] at hloop
  simp only [Option.some.injEq, Prod.mk.injEq] at hloop
  obtain ⟨-, htot, -⟩ := hloop
  rw [← htot] at hres
  exact ⟨hres, rfl⟩

/-- Helper: on the two-package cycle a pass deletes nothing, skips both
packages and leaves the store unchanged. -/
theorem cyc_pass_id (t e : Nat) :
    runPass cycEdges [] ["A", "B"] ["A", "B"] t e 0 = (["A", "B"], t, e, 2) := rfl

/-- C1 failing input: on the two-package dependency cycle (A depends on
B and B depends on A), every pass of deleteAll performs zero deletions
while skipping both packages, so the store never changes and the
while(1) loop of mport.c line 764 never exits: for every fuel the loop
is still running, and deleteAll never reports anything — in particular
no UnremovableSet error exists in the code.  The last conjunct exhibits
the zero-progress pass itself. -/
theorem deleteall_cycle_loops_forever :
    (∀ fuel t e, deleteAllLoop cycEdges [] fuel ["A", "B"] t e = none)
    ∧ (∀ fuel, deleteAll cycEdges [] fuel ["A", "B"] = DeleteAllResult.outOfFuel)
    ∧ runPass cycEdges [] ["A", "B"] ["A", "B"] 0 0 0 = (["A", "B"], 0, 0, 2) := by
  have hloop : ∀ fuel t e, deleteAllLoop cycEdges [] fuel ["A", "B"] t e = none := by
    intro fuel
    induction fuel with
    | zero => intro t e; rfl
    | succ n ih =>
      intro t e
      simp only [deleteAllLoop, cyc_pass_id]
      rw [if_neg (by omega : ¬(2 = 0))]
      exact ih t e
  refine ⟨hloop, ?_, cyc_pass_id 0 0⟩
  intro fuel
  unfold deleteAll
  rw [if_neg (by decide : ¬(["A", "B"] = ([] : List String))), hloop fuel 0 0]

end Mport
